import Mathlib

set_option maxHeartbeats 1000000

/-! Verification of the leave-out polarization estimator implemented in
`src/experiments/methods/pacte.py`.  Count matrices are embedded as lists of
rows of natural-number token counts; floating-point arithmetic is modelled
over the reals; scipy sparse operations are translated into the corresponding
list operations; Python exceptions (assertion failures) are modelled with
`Except`, and a function that returns Python `None` returns `Option.none`. -/

/-- A bag-of-words document: a list of (token id, count) pairs. -/
abbrev BowDoc := List (Nat × Nat)

/-- A corpus: a list of bag-of-words documents. -/
abbrev Corpus := List BowDoc

/-- A count matrix: a list of rows, each row a list of token counts. -/
abbrev Mat := List (List Nat)

/-- `get_news_token_counts(corpus, idx2word)`: coordinate-format assembly of the
(documents x vocabulary) count matrix; duplicate (row, col) pairs are summed by
`sp.csr_matrix`, which the per-entry filtered sum reproduces. -/
def get_news_token_counts (corpus : Corpus) (V : Nat) : Mat :=
  corpus.map (fun doc =>
    (List.range V).map (fun j => ((doc.filter (fun p => p.1 == j)).map Prod.snd).sum))

/-- Python truthiness of the `exclude_user_id` argument of `get_party_q`:
`if exclude_user_id:` is `False` both for `None` and for the integer `0`. -/
def pyTruthy : Option Nat → Bool
  | Option.none => false
  | Option.some i => i != 0

/-- Column sum of a count matrix (`party_counts.sum(axis=0)` at column `j`). -/
def colSum (C : Mat) (j : Nat) : Nat := (C.map (fun r => r.getD j 0)).sum

/-- The adjusted column sum inside `get_party_q`: the full column sum, minus the
excluded row's entry when the Python condition `if exclude_user_id:` fires. -/
noncomputable def party_user_sum (C : Mat) (e : Option Nat) (j : Nat) : ℝ :=
  (colSum C j : ℝ) - (if pyTruthy e then (((C.getD (e.getD 0) []).getD j 0 : Nat) : ℝ) else 0)

/-- `get_party_q(party_counts, exclude_user_id)`: the group token distribution,
normalising the (possibly exclusion-adjusted) column sums by their total over
the vocabulary of size `V`. -/
noncomputable def get_party_q (V : Nat) (C : Mat) (e : Option Nat) : Nat → ℝ :=
  fun j => party_user_sum C e j / (∑ k ∈ Finset.range V, party_user_sum C e k)

/-- `get_rho(dem_q, rep_q)`: elementwise `rep_q / (dem_q + rep_q)`. -/
noncomputable def get_rho (dem_q rep_q : Nat → ℝ) : Nat → ℝ :=
  fun j => rep_q j / (dem_q j + rep_q j)

/-- `get_token_user_counts(party_counts)`: per token, one plus the number of
rows with a nonzero entry in that column (add-one smoothing over `np.ones`). -/
noncomputable def get_token_user_counts (C : Mat) : Nat → ℝ :=
  fun j => 1 + ((C.countP (fun r => r.getD j 0 != 0) : Nat) : ℝ)

/-- The leave-out presence counts built inside `calculate_polarization`:
copy `get_token_user_counts` and decrement by one each token with a nonzero
entry in row `i` (the loop over `sp.find(counts[i, :])[1]`). -/
noncomputable def leaveout_token_counts (C : Mat) (i : Nat) : Nat → ℝ :=
  fun j => get_token_user_counts C j - (if (C.getD i []).getD j 0 != 0 then 1 else 0)

/-- `mutual_information(dem_t, rep_t, dem_not_t, rep_not_t, dem_no, rep_no)`:
add-2-smoothed pointwise mutual information, summing the four
presence/absence and group combinations and normalising by the user total. -/
noncomputable def mutual_information (dem_t rep_t dem_not_t rep_not_t : Nat → ℝ)
    (dem_no rep_no : Nat) : Nat → ℝ :=
  fun j =>
    (1 / ((dem_no : ℝ) + (rep_no : ℝ))) *
      (dem_t j * Real.logb 2 (((dem_no : ℝ) + (rep_no : ℝ)) *
          (dem_t j / ((dem_t j + rep_t j) * (dem_no : ℝ))))
        + dem_not_t j * Real.logb 2 (((dem_no : ℝ) + (rep_no : ℝ)) *
          (dem_not_t j / ((((dem_no : ℝ) + (rep_no : ℝ)) - (dem_t j + rep_t j) + 4) * (dem_no : ℝ))))
        + rep_t j * Real.logb 2 (((dem_no : ℝ) + (rep_no : ℝ)) *
          (rep_t j / ((dem_t j + rep_t j) * (rep_no : ℝ))))
        + rep_not_t j * Real.logb 2 (((dem_no : ℝ) + (rep_no : ℝ)) *
          (rep_not_t j / ((((dem_no : ℝ) + (rep_no : ℝ)) - (dem_t j + rep_t j) + 4) * (rep_no : ℝ)))))

/-- The denominator `chi_denom` of `chi_square`:
`all_t * all_not_t * (dem_t + dem_not_t) * (rep_t + rep_not_t)`. -/
noncomputable def chi_denom (dem_t rep_t dem_not_t rep_not_t : ℝ) (dem_no rep_no : Nat) : ℝ :=
  (dem_t + rep_t) * (((dem_no : ℝ) + (rep_no : ℝ)) - (dem_t + rep_t) + 4)
    * (dem_t + dem_not_t) * (rep_t + rep_not_t)

/-- `chi_square(dem_t, rep_t, dem_not_t, rep_not_t, dem_no, rep_no)`:
the 2x2 contingency chi-square statistic per token. -/
noncomputable def chi_square (dem_t rep_t dem_not_t rep_not_t : Nat → ℝ)
    (dem_no rep_no : Nat) : Nat → ℝ :=
  fun j =>
    (((dem_no : ℝ) + (rep_no : ℝ)) * (dem_t j * rep_not_t j - dem_not_t j * rep_t j) ^ 2) /
      chi_denom (dem_t j) (rep_t j) (dem_not_t j) (rep_not_t j) dem_no rep_no

/-- The dispatch `func = mutual_information if measure == 'mutual_information'
else chi_square` inside `calculate_polarization`. -/
noncomputable def measure_func (measure : String) (a b c d : Nat → ℝ) (m n : Nat) : Nat → ℝ :=
  if measure = "mutual_information" then mutual_information a b c d m n
  else chi_square a b c d m n

/-- One row of the row-normalised matrix `sp.diags(1 / row_totals).dot(counts)`. -/
noncomputable def row_distr (r : List Nat) : Nat → ℝ :=
  fun j => ((r.getD j 0 : Nat) : ℝ) / ((r.sum : Nat) : ℝ)

/-- Dot product of two length-`V` token vectors. -/
noncomputable def dotProd (V : Nat) (f g : Nat → ℝ) : ℝ := ∑ j ∈ Finset.range V, f j * g j

/-- `(1 / n) * user_distr.dot(token_scores).sum()` for one group. -/
noncomputable def expected_score (V : Nat) (C : Mat) (ts : Nat → ℝ) : ℝ :=
  (1 / ((C.length : Nat) : ℝ)) *
    ∑ i ∈ Finset.range C.length, dotProd V (row_distr (C.getD i [])) ts

/-- The leave-out accumulator: `addup += user_distr[i, :].dot(scores_i)[0, 0]`
summed over all rows, where `ts i` is the score vector with row `i` left out. -/
noncomputable def loo_sum (V : Nat) (C : Mat) (ts : Nat → Nat → ℝ) : ℝ :=
  ∑ i ∈ Finset.range C.length, dotProd V (row_distr (C.getD i [])) (ts i)

/-- `token_scores_rep` of the non-leave-out branch of `calculate_polarization`. -/
noncomputable def token_scores_rep_nl (V : Nat) (dem rep : Mat) (measure : String) : Nat → ℝ :=
  if measure = "posterior" then
    get_rho (get_party_q V dem Option.none) (get_party_q V rep Option.none)
  else
    measure_func measure (get_token_user_counts dem) (get_token_user_counts rep)
      (fun j => ((dem.length : Nat) : ℝ) - get_token_user_counts dem j + 2)
      (fun j => ((rep.length : Nat) : ℝ) - get_token_user_counts rep j + 2)
      dem.length rep.length

/-- `token_scores_dem` of the non-leave-out branch: `1 - rho` for the posterior
measure, and the shared vector otherwise. -/
noncomputable def token_scores_dem_nl (V : Nat) (dem rep : Mat) (measure : String) : Nat → ℝ :=
  if measure = "posterior" then fun j => 1 - token_scores_rep_nl V dem rep measure j
  else token_scores_rep_nl V dem rep measure

/-- The score vector used for row `i` of group 1 in the leave-out loop. -/
noncomputable def dem_loo_scores (V : Nat) (dem rep : Mat) (measure : String) (i : Nat) :
    Nat → ℝ :=
  if measure = "posterior" then
    fun j => 1 - get_rho (get_party_q V dem (Option.some i)) (get_party_q V rep Option.none) j
  else
    measure_func measure (leaveout_token_counts dem i) (get_token_user_counts rep)
      (fun j => (((dem.length - 1 : Nat)) : ℝ) - leaveout_token_counts dem i j + 2)
      (fun j => ((rep.length : Nat) : ℝ) - get_token_user_counts rep j + 2)
      (dem.length - 1) rep.length

/-- The score vector used for row `i` of group 2 in the leave-out loop. -/
noncomputable def rep_loo_scores (V : Nat) (dem rep : Mat) (measure : String) (i : Nat) :
    Nat → ℝ :=
  if measure = "posterior" then
    get_rho (get_party_q V dem Option.none) (get_party_q V rep (Option.some i))
  else
    measure_func measure (get_token_user_counts dem) (leaveout_token_counts rep i)
      (fun j => ((dem.length : Nat) : ℝ) - get_token_user_counts dem j + 2)
      (fun j => (((rep.length - 1 : Nat)) : ℝ) - leaveout_token_counts rep i j + 2)
      dem.length (rep.length - 1)

/-- The polarization value computed by `calculate_polarization` once the
asserts and the measure check have passed:
`1/2 * (dem_val + rep_val)` on either branch of `leaveout`. -/
noncomputable def polar_value (V : Nat) (dem rep : Mat) (measure : String)
    (leaveout : Bool) : ℝ :=
  if leaveout then
    1 / 2 * ((1 / ((dem.length : Nat) : ℝ)) * loo_sum V dem (dem_loo_scores V dem rep measure)
      + (1 / ((rep.length : Nat) : ℝ)) * loo_sum V rep (rep_loo_scores V dem rep measure))
  else
    1 / 2 * (expected_score V dem (token_scores_dem_nl V dem rep measure)
      + expected_score V rep (token_scores_rep_nl V dem rep measure))

/-- The zero-row assertion of `calculate_polarization`:
`set(row_totals.nonzero()[0]) == set(range(n))` holds iff every row sum is nonzero. -/
def allRowsNonzero (C : Mat) : Bool := C.all (fun r => r.sum != 0)

/-- `calculate_polarization(dem_counts, rep_counts, measure, leaveout)`:
an assertion failure raises (`Except.error`), an unrecognized measure prints a
message and returns Python `None` (`Except.ok Option.none`), and otherwise the
polarization value is returned. -/
noncomputable def calculate_polarization (V : Nat) (dem rep : Mat) (measure : String)
    (leaveout : Bool) : Except String (Option ℝ) :=
  if !(allRowsNonzero dem && allRowsNonzero rep) then Except.error "AssertionError"
  else if measure ∉ ["posterior", "mutual_information", "chi_square"] then Except.ok Option.none
  else Except.ok (Option.some (polar_value V dem rep measure leaveout))

/-- An abstract interface for Python's `random` module: `mkSeeded s` models
`random.Random()` followed by `.seed(s)`, `sample g n k` models
`RNG.sample(range(n), k)`, and `shuffle g n` models shuffling `np.arange(n)`. -/
structure RandomSrc where
  Gen : Type
  mkSeeded : Nat → Gen
  sample : Gen → Nat → Nat → List Nat × Gen
  shuffle : Gen → Nat → List Nat × Gen

/-- The `max_docs` truncation step of `get_leaveout_score` exactly as written:
`if max_docs < dem_user_len: dem_counts = dem_counts[:dem_user_len]`, i.e. the
slice keeps the first `dem_user_len` rows (the matrix's own length). -/
def truncate_docs (C : Mat) (max_docs : Nat) : Mat :=
  if max_docs < C.length then C.take C.length else C

/-- The group-size balancing step: seed the private generator with 42 and
subsample the larger group's rows down to the smaller group's size. -/
def subsample_step (M : RandomSrc) (dem rep : Mat) : Mat × Mat × M.Gen :=
  if rep.length < dem.length then
    ((M.sample (M.mkSeeded 42) dem.length rep.length).1.map (fun i => dem.getD i []), rep,
      (M.sample (M.mkSeeded 42) dem.length rep.length).2)
  else if dem.length < rep.length then
    (dem, (M.sample (M.mkSeeded 42) rep.length dem.length).1.map (fun i => rep.getD i []),
      (M.sample (M.mkSeeded 42) rep.length dem.length).2)
  else (dem, rep, M.mkSeeded 42)

/-- Number of rows with a nonzero entry in column `j`
(`np.count_nonzero(wordcounts == j)` over the combined matrix). -/
def col_user_count (C : Mat) (j : Nat) : Nat := C.countP (fun r => r.getD j 0 != 0)

/-- The columns kept by the rare-token filter: tokens used by more than one row. -/
def keep_cols (C : Mat) (V : Nat) : List Nat :=
  (List.range V).filter (fun j => 1 < col_user_count C j)

/-- Column selection `counts[:, mask]`. -/
def filter_cols (C : Mat) (cols : List Nat) : Mat :=
  C.map (fun r => cols.map (fun j => r.getD j 0))

/-- The empty-row filter: keep rows that used at least one remaining token. -/
def filter_rows (C : Mat) : Mat :=
  C.filter (fun r => r.any (fun x => x != 0))

/-- The matrices after truncation and subsampling, with the generator state. -/
def pre_matrices (M : RandomSrc) (c1 c2 : Corpus) (V max_docs : Nat) : Mat × Mat × M.Gen :=
  subsample_step M (truncate_docs (get_news_token_counts c1 V) max_docs)
    (truncate_docs (get_news_token_counts c2 V) max_docs)

/-- The vocabulary columns surviving the rare-token filter. -/
def kept_cols (M : RandomSrc) (c1 c2 : Corpus) (V max_docs : Nat) : List Nat :=
  keep_cols ((pre_matrices M c1 c2 V max_docs).1 ++ (pre_matrices M c1 c2 V max_docs).2.1) V

/-- The pair of count matrices passed to `calculate_polarization` for the
actual score: after truncation, subsampling, rare-column dropping and
empty-row dropping. -/
def actual_matrices (M : RandomSrc) (c1 c2 : Corpus) (V max_docs : Nat) : Mat × Mat :=
  (filter_rows (filter_cols (pre_matrices M c1 c2 V max_docs).1 (kept_cols M c1 c2 V max_docs)),
    filter_rows (filter_cols (pre_matrices M c1 c2 V max_docs).2.1 (kept_cols M c1 c2 V max_docs)))

/-- `get_leaveout_score(corpus1, corpus2, id2word, ...)`.  The parameter `g0`
is the ambient (global) generator state the call starts from; the code never
consults it because it seeds a private generator with the constant 42.  The
triple `(actual_val, random_val, dem_user_len + rep_user_len)` is returned,
with the group sizes recorded after subsampling, before row dropping. -/
noncomputable def get_leaveout_score (M : RandomSrc) (g0 : M.Gen) (c1 c2 : Corpus) (V : Nat)
    (measure : String) (leaveout : Bool) (default_score : ℝ) (min_docs max_docs : Nat) :
    Except String (Option ℝ × Option ℝ × Nat) :=
  if (get_news_token_counts c1 V).length < min_docs
      ∨ (get_news_token_counts c2 V).length < min_docs then
    Except.ok (Option.some default_score, Option.some default_score,
      (get_news_token_counts c1 V).length + (get_news_token_counts c2 V).length)
  else
    if (pre_matrices M c1 c2 V max_docs).1.length
        = (pre_matrices M c1 c2 V max_docs).2.1.length then
      do
        let dem4 := (actual_matrices M c1 c2 V max_docs).1
        let rep4 := (actual_matrices M c1 c2 V max_docs).2
        let actual ← calculate_polarization (kept_cols M c1 c2 V max_docs).length
          dem4 rep4 measure leaveout
        let combined := dem4 ++ rep4
        let perm := (M.shuffle (pre_matrices M c1 c2 V max_docs).2.2 combined.length).1
        let shuffled := perm.map (fun i => combined.getD i [])
        let random ← calculate_polarization (kept_cols M c1 c2 V max_docs).length
          (shuffled.take (pre_matrices M c1 c2 V max_docs).1.length)
          (shuffled.drop (pre_matrices M c1 c2 V max_docs).1.length) measure leaveout
        return (actual, random,
          (pre_matrices M c1 c2 V max_docs).1.length
            + (pre_matrices M c1 c2 V max_docs).2.1.length)
    else Except.error "AssertionError"

/-- A concrete lawful interpretation of the random interface, used to evaluate
the pipeline on concrete inputs. -/
def trivialRandom : RandomSrc where
  Gen := Unit
  mkSeeded := fun _ => Unit.unit
  sample := fun _ n k => ((List.range n).take k, Unit.unit)
  shuffle := fun _ n => (List.range n, Unit.unit)

/-- C1: the claim says `get_party_q(C, e)` subtracts row `e` for every valid
row index `e`, including `e = 0`.  The code's guard `if exclude_user_id:` is
falsy at index 0, so no subtraction happens there: on `C = [[1,0],[0,1]]` the
call with excluded index 0 coincides with the no-exclusion call and yields
probability `1/2` for token 0, while the distribution of `C` with row 0
actually removed gives probability `0`; excluding index 1 does agree with
removing row 1. -/
theorem claim_C1_get_party_q_zero_index_bug :
    get_party_q 2 [[1, 0], [0, 1]] (Option.some 0) = get_party_q 2 [[1, 0], [0, 1]] Option.none
    ∧ get_party_q 2 [[1, 0], [0, 1]] (Option.some 0) 0 = 1 / 2
    ∧ get_party_q 2 (([[1, 0], [0, 1]] : Mat).eraseIdx 0) Option.none 0 = 0
    ∧ get_party_q 2 [[1, 0], [0, 1]] (Option.some 1) 0 = 1
    ∧ get_party_q 2 (([[1, 0], [0, 1]] : Mat).eraseIdx 1) Option.none 0 = 1 := by
  refine ⟨funext fun j => ?_, ?_, ?_, ?_, ?_⟩ <;>
    norm_num [get_party_q, party_user_sum, pyTruthy, colSum, Finset.sum_range_succ,
      List.eraseIdx]

/-- C2: the claim says a group with more than `max_docs` rows is truncated to
its first `max_docs` rows.  The code slices `counts[:dem_user_len]`, the
matrix's own length, so the truncation step is the identity for every input:
with `max_docs = 2` a 3-row group still has 3 rows afterwards. -/
theorem claim_C2_truncation_noop :
    (∀ (C : Mat) (max_docs : Nat), truncate_docs C max_docs = C)
    ∧ (truncate_docs [[1], [1], [1]] 2).length = 3 := by
  constructor
  · intro C max_docs
    unfold truncate_docs
    split <;> simp
  · rfl

/-- C9: `get_leaveout_score` never consults the ambient generator state `g0`
it is started from, because it seeds a private generator with the constant 42;
hence with the same inputs and configuration the returned triple is identical
across runs regardless of the global random state. -/
theorem claim_C9_global_rng_independence (M : RandomSrc) (g1 g2 : M.Gen) (c1 c2 : Corpus)
    (V : Nat) (measure : String) (l : Bool) (d : ℝ) (min_docs max_docs : Nat) :
    get_leaveout_score M g1 c1 c2 V measure l d min_docs max_docs
      = get_leaveout_score M g2 c1 c2 V measure l d min_docs max_docs := rfl

/-- C5: with no all-zero rows in either matrix and a measure outside the three
recognized names, `calculate_polarization` returns Python `None` (modelled as
`Except.ok Option.none`) instead of raising, for either value of `leaveout`. -/
theorem claim_C5_invalid_measure_returns_none (V : Nat) (dem rep : Mat) (measure : String)
    (l : Bool) (h1 : allRowsNonzero dem = true) (h2 : allRowsNonzero rep = true)
    (h3 : measure ∉ ["posterior", "mutual_information", "chi_square"]) :
    calculate_polarization V dem rep measure l = Except.ok Option.none := by
  simp [calculate_polarization, h1, h2, h3]

/-- Witness for C5 at a concrete invalid measure. -/
theorem claim_C5_witness :
    calculate_polarization 1 [[1]] [[1]] "foo" true = Except.ok Option.none :=
  claim_C5_invalid_measure_returns_none 1 [[1]] [[1]] "foo" true (by decide) (by decide)
    (by decide)

/-- C6: when either group has fewer than `min_docs` documents,
`get_leaveout_score` short-circuits and returns exactly
`(default_score, default_score, n1 + n2)` with no estimation attempted. -/
theorem claim_C6_min_docs_fallback (M : RandomSrc) (g0 : M.Gen) (c1 c2 : Corpus) (V : Nat)
    (measure : String) (l : Bool) (d : ℝ) (min_docs max_docs : Nat)
    (h : c1.length < min_docs ∨ c2.length < min_docs) :
    get_leaveout_score M g0 c1 c2 V measure l d min_docs max_docs
      = Except.ok (Option.some d, Option.some d, c1.length + c2.length) := by
  have h1 : (get_news_token_counts c1 V).length = c1.length := by
    simp [get_news_token_counts]
  have h2 : (get_news_token_counts c2 V).length = c2.length := by
    simp [get_news_token_counts]
  unfold get_leaveout_score
  rw [h1, h2, if_pos h]

/-- Witness for C6: groups of 1 and 1 documents with `min_docs = 10` yield
`(default_score, default_score, 2)`. -/
theorem claim_C6_witness :
    get_leaveout_score trivialRandom Unit.unit [[(0, 1)]] [[(0, 1)]] 1 "posterior" true
      (1 / 2) 10 999 = Except.ok (Option.some (1 / 2), Option.some (1 / 2), 2) :=
  claim_C6_min_docs_fallback trivialRandom Unit.unit [[(0, 1)]] [[(0, 1)]] 1 "posterior" true
    (1 / 2) 10 999 (Or.inl (by decide))

/-- C3 counterexample: with groups of equal size 2 (so the `min_docs = 2` guard
passes and subsampling is a no-op), the rare-column filter can empty a row of
one group only, and the empty-row filter then drops it: the matrices actually
passed to `calculate_polarization` have 1 and 2 rows. -/
theorem claim_C3_unequal_rows_counterexample :
    (actual_matrices trivialRandom [[(0, 1)], [(1, 1)]] [[(0, 1)], [(0, 1)]] 2 999).1.length = 1
    ∧ (actual_matrices trivialRandom [[(0, 1)], [(1, 1)]] [[(0, 1)], [(0, 1)]] 2 999).2.length = 2
    ∧ ¬ ((get_news_token_counts [[(0, 1)], [(1, 1)]] 2).length < 2
        ∨ (get_news_token_counts [[(0, 1)], [(0, 1)]] 2).length < 2) := by decide

/-- C3 amended: immediately after the subsampling step (before rare-column and
empty-row dropping) the two groups do have equal row counts, for any random
source whose `sample` returns the requested number of indices. -/
theorem claim_C3_equal_rows_after_subsample (M : RandomSrc)
    (hM : ∀ (g : M.Gen) (n k : Nat), k ≤ n → ((M.sample g n k).1).length = k)
    (dem rep : Mat) :
    (subsample_step M dem rep).1.length = (subsample_step M dem rep).2.1.length := by
  unfold subsample_step
  split_ifs with h1 h2
  · simp [hM _ _ _ (le_of_lt h1)]
  · simp [hM _ _ _ (le_of_lt h2)]
  · dsimp only
    omega

/-- Witness for the amended C3 at a concrete unequal-size input. -/
theorem claim_C3_equal_rows_after_subsample_witness :
    (subsample_step trivialRandom [[1], [1]] [[1]]).1.length
      = (subsample_step trivialRandom [[1], [1]] [[1]]).2.1.length :=
  claim_C3_equal_rows_after_subsample trivialRandom
    (fun g n k h => by simp [trivialRandom, Nat.min_eq_left h]) [[1], [1]] [[1]]

/-- Removing row `i` drops exactly one from the count of rows satisfying `p`
when row `i` satisfies `p`, and nothing otherwise. -/
theorem countP_eraseIdx_eq (p : List Nat → Bool) (C : Mat) :
    ∀ i, i < C.length →
      C.countP p = (C.eraseIdx i).countP p + (if p (C.getD i []) then 1 else 0) := by
  induction C with
  | nil => intro i h; simp at h
  | cons r t ih =>
    intro i h
    cases i with
    | zero =>
      simp only [List.countP_cons, List.eraseIdx_cons_zero, List.getD_cons_zero]
    | succ n =>
      have hn : n < t.length := by simpa using h
      have ht := ih n hn
      simp only [List.countP_cons, List.eraseIdx_cons_succ, List.getD_cons_succ]
      omega

/-- C4: the incremental leave-out update of the presence counts (copy and
decrement by one each token with a nonzero entry in row `i`) coincides exactly
with recomputing `get_token_user_counts` on the matrix with row `i` removed. -/
theorem claim_C4_leaveout_counts_eq_removed_row (C : Mat) (i : Nat) (h : i < C.length) :
    leaveout_token_counts C i = get_token_user_counts (C.eraseIdx i) := by
  funext j
  have hc := countP_eraseIdx_eq (fun r => r.getD j 0 != 0) C i h
  simp only [leaveout_token_counts, get_token_user_counts]
  rw [hc]
  push_cast
  split <;> simp <;> ring

/-- Witness for C4 at a concrete matrix and row index. -/
theorem claim_C4_witness :
    leaveout_token_counts [[1, 0], [1, 1]] 1
      = get_token_user_counts (([[1, 0], [1, 1]] : Mat).eraseIdx 1) :=
  claim_C4_leaveout_counts_eq_removed_row [[1, 0], [1, 1]] 1 (by decide)

/-- C10: presence counts produced by `get_token_user_counts` lie in
`[1, n + 1]`, and for any such presence counts with complements `n - t + 2`
the chi-square denominator is strictly positive, so the division in
`chi_square` never divides by zero. -/
theorem claim_C10_chi_denominator_positive :
    (∀ (C : Mat) (j : Nat),
        1 ≤ get_token_user_counts C j ∧ get_token_user_counts C j ≤ (C.length : ℝ) + 1)
    ∧ (∀ (n1 n2 : Nat) (dt rt : ℝ), 1 ≤ dt → dt ≤ (n1 : ℝ) + 1 → 1 ≤ rt → rt ≤ (n2 : ℝ) + 1 →
        0 < chi_denom dt rt ((n1 : ℝ) - dt + 2) ((n2 : ℝ) - rt + 2) n1 n2) := by
  constructor
  · intro C j
    unfold get_token_user_counts
    constructor
    · have h0 : (0 : ℝ) ≤ ((C.countP (fun r => r.getD j 0 != 0) : Nat) : ℝ) :=
        Nat.cast_nonneg _
      linarith
    · have hle : C.countP (fun r => r.getD j 0 != 0) ≤ C.length := List.countP_le_length _
      have hle2 : ((C.countP (fun r => r.getD j 0 != 0) : Nat) : ℝ) ≤ (C.length : ℝ) :=
        Nat.cast_le.2 hle
      linarith
  · intro n1 n2 dt rt h1 h2 h3 h4
    unfold chi_denom
    have ha : (0 : ℝ) < dt + rt := by linarith
    have hb : (0 : ℝ) < ((n1 : ℝ) + (n2 : ℝ)) - (dt + rt) + 4 := by linarith
    have hcp : (0 : ℝ) < dt + ((n1 : ℝ) - dt + 2) := by linarith
    have hdp : (0 : ℝ) < rt + ((n2 : ℝ) - rt + 2) := by linarith
    exact mul_pos (mul_pos (mul_pos ha hb) hcp) hdp

/-- Witness for C10 at concrete presence counts and group sizes. -/
theorem claim_C10_witness :
    (1 ≤ get_token_user_counts [[1]] 0
      ∧ get_token_user_counts [[1]] 0 ≤ ((([[1]] : Mat).length : ℝ) + 1))
    ∧ 0 < chi_denom 1 1 (((1 : Nat) : ℝ) - 1 + 2) (((1 : Nat) : ℝ) - 1 + 2) 1 1 :=
  ⟨claim_C10_chi_denominator_positive.1 [[1]] 0,
    claim_C10_chi_denominator_positive.2 1 1 1 1 (by norm_num) (by norm_num) (by norm_num)
      (by norm_num)⟩

/-- Swapping the two groups' statistics leaves `mutual_information` unchanged:
the four smoothed PMI terms are permuted and the shared totals commute. -/
theorem mutual_information_swap (a b c d : Nat → ℝ) (m n : Nat) :
    mutual_information b a d c n m = mutual_information a b c d m n := by
  funext j
  simp only [mutual_information]
  rw [add_comm (b j) (a j), add_comm ((n : ℝ)) ((m : ℝ))]
  ring

/-- Swapping the two groups' statistics leaves `chi_square` unchanged: the
squared cross difference and the four marginal factors are symmetric. -/
theorem chi_square_swap (a b c d : Nat → ℝ) (m n : Nat) :
    chi_square b a d c n m = chi_square a b c d m n := by
  funext j
  simp only [chi_square, chi_denom]
  rw [add_comm (b j) (a j), add_comm ((n : ℝ)) ((m : ℝ))]
  congr 1
  · ring
  · ring

/-- Both branches of the measure dispatch are swap-symmetric. -/
theorem measure_func_swap (measure : String) (a b c d : Nat → ℝ) (m n : Nat) :
    measure_func measure b a d c n m = measure_func measure a b c d m n := by
  unfold measure_func
  split
  · exact mutual_information_swap a b c d m n
  · exact chi_square_swap a b c d m n

/-- For the non-posterior measures, the score vectors of the swapped call are
the original call's score vectors. -/
theorem token_scores_nl_swap (V : Nat) (dem rep : Mat) (measure : String)
    (hp : measure ≠ "posterior") :
    token_scores_dem_nl V rep dem measure = token_scores_rep_nl V dem rep measure
    ∧ token_scores_rep_nl V rep dem measure = token_scores_dem_nl V dem rep measure := by
  have h : token_scores_rep_nl V rep dem measure = token_scores_rep_nl V dem rep measure := by
    rw [token_scores_rep_nl, token_scores_rep_nl, if_neg hp, if_neg hp]
    exact measure_func_swap measure (get_token_user_counts dem) (get_token_user_counts rep)
      (fun j => ((dem.length : Nat) : ℝ) - get_token_user_counts dem j + 2)
      (fun j => ((rep.length : Nat) : ℝ) - get_token_user_counts rep j + 2)
      dem.length rep.length
  constructor
  · rw [token_scores_dem_nl, if_neg hp, h]
  · rw [h, token_scores_dem_nl, if_neg hp]

/-- For the non-posterior measures, the leave-out score vectors of the swapped
call are the original call's score vectors with the two loops interchanged. -/
theorem loo_scores_swap (V : Nat) (dem rep : Mat) (measure : String)
    (hp : measure ≠ "posterior") :
    dem_loo_scores V rep dem measure = rep_loo_scores V dem rep measure
    ∧ rep_loo_scores V rep dem measure = dem_loo_scores V dem rep measure := by
  constructor
  · funext i
    rw [dem_loo_scores, rep_loo_scores, if_neg hp, if_neg hp]
    exact measure_func_swap measure (get_token_user_counts dem) (leaveout_token_counts rep i)
      (fun j => ((dem.length : Nat) : ℝ) - get_token_user_counts dem j + 2)
      (fun j => (((rep.length - 1 : Nat)) : ℝ) - leaveout_token_counts rep i j + 2)
      dem.length (rep.length - 1)
  · funext i
    rw [rep_loo_scores, dem_loo_scores, if_neg hp, if_neg hp]
    exact measure_func_swap measure (leaveout_token_counts dem i) (get_token_user_counts rep)
      (fun j => (((dem.length - 1 : Nat)) : ℝ) - leaveout_token_counts dem i j + 2)
      (fun j => ((rep.length : Nat) : ℝ) - get_token_user_counts rep j + 2)
      (dem.length - 1) rep.length

/-- For the non-posterior measures the final polarization value is invariant
under swapping which matrix is group 1 and which is group 2. -/
theorem polar_value_swap (V : Nat) (dem rep : Mat) (measure : String) (l : Bool)
    (hp : measure ≠ "posterior") :
    polar_value V rep dem measure l = polar_value V dem rep measure l := by
  cases l with
  | false =>
    simp only [polar_value, Bool.false_eq_true, if_false]
    rw [(token_scores_nl_swap V dem rep measure hp).1,
      (token_scores_nl_swap V dem rep measure hp).2]
    ring
  | true =>
    simp only [polar_value, if_true]
    rw [(loo_scores_swap V dem rep measure hp).1, (loo_scores_swap V dem rep measure hp).2]
    ring

/-- C7: for `mutual_information` and `chi_square`, with either value of
`leaveout` and matrices with no all-zero rows, `calculate_polarization` is
invariant under swapping which matrix is group 1 and which is group 2, and the
non-leave-out token score vector is shared between the two groups. -/
theorem claim_C7_nonposterior_swap_invariance (V : Nat) (dem rep : Mat) (measure : String)
    (l : Bool) (hm : measure = "mutual_information" ∨ measure = "chi_square")
    (h1 : allRowsNonzero dem = true) (h2 : allRowsNonzero rep = true) :
    calculate_polarization V dem rep measure l = calculate_polarization V rep dem measure l
    ∧ token_scores_dem_nl V dem rep measure = token_scores_rep_nl V dem rep measure := by
  have hp : measure ≠ "posterior" := by
    rcases hm with h | h <;> subst h <;> decide
  have hmem : measure ∈ ["posterior", "mutual_information", "chi_square"] := by
    rcases hm with h | h <;> simp [h]
  constructor
  · simp only [calculate_polarization, h1, h2, Bool.and_self, Bool.not_true,
      Bool.false_eq_true, if_false, hmem, not_true_eq_false]
    rw [polar_value_swap V dem rep measure l hp]
  · rw [token_scores_dem_nl, if_neg hp]

/-- Witness for C7 at concrete matrices and the chi-square measure. -/
theorem claim_C7_witness :
    calculate_polarization 1 [[1]] [[2]] "chi_square" false
        = calculate_polarization 1 [[2]] [[1]] "chi_square" false
    ∧ token_scores_dem_nl 1 [[1]] [[2]] "chi_square"
        = token_scores_rep_nl 1 [[1]] [[2]] "chi_square" :=
  claim_C7_nonposterior_swap_invariance 1 [[1]] [[2]] "chi_square" false (Or.inr rfl)
    (by decide) (by decide)

/-- Summing a function mapped over `List.range` equals the `Finset.range` sum. -/
theorem sum_map_range (f : Nat → Nat) (V : Nat) :
    ((List.range V).map f).sum = ∑ j ∈ Finset.range V, f j := by
  induction V with
  | zero => simp
  | succ n ih => simp [List.range_succ, Finset.sum_range_succ, ih]

/-- Splitting a document's count total by token id: summing, over the whole
vocabulary, the counts carried by pairs with that token id recovers the sum of
all the document's counts, provided every token id is in range. -/
theorem doc_entry_sum (V : Nat) :
    ∀ doc : BowDoc, (∀ p ∈ doc, p.1 < V) →
      (∑ j ∈ Finset.range V, ((doc.filter (fun q => q.1 == j)).map Prod.snd).sum)
        = (doc.map Prod.snd).sum := by
  intro doc
  induction doc with
  | nil => intro _; simp
  | cons p rest ih =>
    intro h
    have hp : p.1 < V := h p (by simp)
    have hrest : ∀ q ∈ rest, q.1 < V := fun q hq => h q (by simp [hq])
    have step : ∀ j, (((p :: rest).filter (fun q => q.1 == j)).map Prod.snd).sum
        = (if p.1 = j then p.2 else 0) + ((rest.filter (fun q => q.1 == j)).map Prod.snd).sum := by
      intro j
      by_cases hj : p.1 = j
      · simp [List.filter_cons, hj]
      · simp [List.filter_cons, hj]
    calc (∑ j ∈ Finset.range V, (((p :: rest).filter (fun q => q.1 == j)).map Prod.snd).sum)
        = ∑ j ∈ Finset.range V,
            ((if p.1 = j then p.2 else 0)
              + ((rest.filter (fun q => q.1 == j)).map Prod.snd).sum) := by
          exact Finset.sum_congr rfl (fun j _ => step j)
      _ = (∑ j ∈ Finset.range V, (if p.1 = j then p.2 else 0))
            + ∑ j ∈ Finset.range V, ((rest.filter (fun q => q.1 == j)).map Prod.snd).sum := by
          rw [Finset.sum_add_distrib]
      _ = p.2 + (rest.map Prod.snd).sum := by
          rw [ih hrest, Finset.sum_ite_eq (Finset.range V) p.1 (fun _ => p.2),
            if_pos (Finset.mem_range.2 hp)]
      _ = ((p :: rest).map Prod.snd).sum := by simp

/-- C8: the count matrix built by `get_news_token_counts` has one row per
document of length `V`, its total entry sum equals the sum of all counts over
all (token id, count) pairs, and each entry `[i, j]` accumulates every pair of
document `i` carrying token id `j` (duplicates summed). -/
theorem claim_C8_token_count_matrix (corpus : Corpus) (V : Nat)
    (h : ∀ doc ∈ corpus, ∀ p ∈ doc, p.1 < V) :
    (get_news_token_counts corpus V).length = corpus.length
    ∧ (∀ row ∈ get_news_token_counts corpus V, row.length = V)
    ∧ ((get_news_token_counts corpus V).map List.sum).sum
        = (corpus.map (fun doc => (doc.map Prod.snd).sum)).sum
    ∧ ∀ i j, i < corpus.length → j < V →
        ((get_news_token_counts corpus V).getD i []).getD j 0
          = (((corpus.getD i []).filter (fun p => p.1 == j)).map Prod.snd).sum := by
  refine ⟨by simp [get_news_token_counts], ?_, ?_, ?_⟩
  · intro row hrow
    simp only [get_news_token_counts, List.mem_map] at hrow
    obtain ⟨doc, _, hdoc⟩ := hrow
    simp [← hdoc]
  · unfold get_news_token_counts
    rw [List.map_map]
    induction corpus with
    | nil => simp
    | cons doc rest ih =>
      have hdoc : ∀ p ∈ doc, p.1 < V := h doc (by simp)
      have hrest : ∀ d ∈ rest, ∀ p ∈ d, p.1 < V := fun d hd => h d (by simp [hd])
      simp only [List.map_cons, List.sum_cons, ih hrest, Function.comp]
      rw [sum_map_range, doc_entry_sum V doc hdoc]
  · intro i j hi hj
    have hrow : (get_news_token_counts corpus V).getD i []
        = (List.range V).map
            (fun j => (((corpus.getD i []).filter (fun p => p.1 == j)).map Prod.snd).sum) := by
      unfold get_news_token_counts
      rw [List.getD_eq_getElem?_getD, List.getElem?_map,
        List.getElem?_eq_getElem hi]
      simp [List.getD_eq_getElem?_getD, List.getElem?_eq_getElem hi]
    rw [hrow, List.getD_eq_getElem?_getD, List.getElem?_map, List.getElem?_range hj]
    rfl

/-- Witness for C8 on a one-document corpus with a duplicated token id. -/
theorem claim_C8_witness :
    (get_news_token_counts [[(0, 2), (0, 3)]] 1).length = ([[(0, 2), (0, 3)]] : Corpus).length
    ∧ (∀ row ∈ get_news_token_counts [[(0, 2), (0, 3)]] 1, row.length = 1)
    ∧ ((get_news_token_counts [[(0, 2), (0, 3)]] 1).map List.sum).sum
        = (([[(0, 2), (0, 3)]] : Corpus).map (fun doc => (doc.map Prod.snd).sum)).sum
    ∧ ∀ i j, i < ([[(0, 2), (0, 3)]] : Corpus).length → j < 1 →
        ((get_news_token_counts [[(0, 2), (0, 3)]] 1).getD i []).getD j 0
          = (((([[(0, 2), (0, 3)]] : Corpus).getD i []).filter
              (fun p => p.1 == j)).map Prod.snd).sum :=
  claim_C8_token_count_matrix [[(0, 2), (0, 3)]] 1 (by decide)
